import Mathlib

/-!
Verification of the transaction-processing ledger of this repository.

The core of the program is `Ledger::process_transaction` in
src/src/accounting.rs: per-client accounts (available / held / total /
locked plus a per-account map of currently disputed transaction ids to
their amounts) and a global cache mapping deposit transaction ids to their
amounts.  Money is the exact decimal type d128 in the source; exact decimal
addition, subtraction and comparison embed exactly into the rationals, so
`Money` below is `Rat`.  The hash maps of the source are embedded as
association lists with key-unique semantics (`mapLookup` / `mapInsert` /
`mapErase` mirror HashMap get / insert / remove).  Fallible code
(anyhow::Result in the source) returns `Except`; the two error conditions
of process_transaction are the `LedgerError` constructors.

src/src/main.rs contains an earlier standalone variant of the same
processing loop whose money type is f64 (binary floating point) and whose
dispute / resolve / chargeback arms are keyed off the global deposit cache
without removal; the spec's design notes call it out as a superseded
revision.  Its floating-point arithmetic is addressed where the relevant
claim is settled.
-/

namespace Accounting

/-- ClientId is u16 in the source; only equality on it is used. -/
abbrev ClientId := Nat

/-- TransactionId is u32 in the source; only equality on it is used. -/
abbrev TransactionId := Nat

/-- Money is d128, an exact decimal type; exact decimal arithmetic embeds
exactly into the rationals. -/
abbrev Money := Rat

/-- HashMap get: first value stored under the key, if any. -/
def mapLookup {α : Type} (k : Nat) : List (Nat × α) → Option α
  | [] => none
  | (k', v) :: m => if k' = k then some v else mapLookup k m

/-- HashMap remove: drop every entry stored under the key. -/
def mapErase {α : Type} (k : Nat) : List (Nat × α) → List (Nat × α)
  | [] => []
  | (k', v) :: m => if k' = k then mapErase k m else (k', v) :: mapErase k m

/-- HashMap insert: store the value under the key, replacing any previous
entry for that key. -/
def mapInsert {α : Type} (k : Nat) (v : α) (m : List (Nat × α)) : List (Nat × α) :=
  (k, v) :: mapErase k m

/-- The five transaction kinds of the input (enum TransactionType). -/
inductive TransactionType
  | Deposit
  | Withdrawal
  | Dispute
  | Resolve
  | Chargeback
  deriving DecidableEq

/-- One input record (struct Transaction): kind, client id, transaction id
and the optional amount. -/
structure Transaction where
  type_ : TransactionType
  client : ClientId
  id : TransactionId
  amount : Option Money
  deriving DecidableEq

/-- Per-client account state (struct Account), including the private map of
currently disputed transaction ids to their disputed amounts. -/
structure Account where
  client : ClientId
  available : Money
  held : Money
  total : Money
  locked : Bool
  disputed_txs : List (TransactionId × Money)
  deriving DecidableEq

/-- Account::new: all balances zero, unlocked, nothing disputed. -/
def Account.new (client : ClientId) : Account :=
  { client := client, available := 0, held := 0, total := 0, locked := false,
    disputed_txs := [] }

/-- The Ledger: accounts keyed by client id, and the global cache mapping
deposit transaction ids to their amounts. -/
structure Ledger where
  accounts : List (ClientId × Account)
  deposit_transactions_cache : List (TransactionId × Money)
  deriving DecidableEq

/-- Ledger::new: empty. -/
def Ledger.new : Ledger :=
  { accounts := [], deposit_transactions_cache := [] }

/-- The two failure conditions of process_transaction (anyhow errors in the
source): a deposit or withdrawal without an amount, and a withdrawal of
more than the available funds. -/
inductive LedgerError
  | missingAmount
  | insufficientFunds
  deriving DecidableEq

/-- The account process_transaction works on: the client's entry, or a
fresh account if the client was never seen (accounts.entry(client)
.or_insert(Account::new(client))). -/
def accountOf (l : Ledger) (c : ClientId) : Account :=
  (mapLookup c l.accounts).getD (Account.new c)

/-- Ledger::process_transaction.  The returned pair is the Result of the
source function together with the ledger state after the call: in the
source the ledger is mutated in place, and on an error the entry created by
or_insert survives, so the post state is returned on the error path too. -/
def process_transaction (l : Ledger) (t : Transaction) :
    Except LedgerError Unit × Ledger :=
  let client := t.client
  let account := accountOf l client
  match t.type_ with
  | TransactionType.Deposit =>
    match t.amount with
    | none =>
      (Except.error LedgerError.missingAmount,
       { l with accounts := mapInsert client account l.accounts })
    | some amount =>
      let account' := { account with
        available := account.available + amount,
        total := account.total + amount }
      (Except.ok (),
       { accounts := mapInsert client account' l.accounts,
         deposit_transactions_cache :=
           mapInsert t.id amount l.deposit_transactions_cache })
  | TransactionType.Withdrawal =>
    match t.amount with
    | none =>
      (Except.error LedgerError.missingAmount,
       { l with accounts := mapInsert client account l.accounts })
    | some amount =>
      if amount ≤ account.available ∧ amount ≤ account.total then
        let account' := { account with
          available := account.available - amount,
          total := account.total - amount }
        (Except.ok (),
         { l with accounts := mapInsert client account' l.accounts })
      else
        (Except.error LedgerError.insufficientFunds,
         { l with accounts := mapInsert client account l.accounts })
  | TransactionType.Dispute =>
    match mapLookup t.id l.deposit_transactions_cache with
    | some amount =>
      let account' := { account with
        disputed_txs := mapInsert t.id amount account.disputed_txs,
        held := account.held + amount,
        available := account.available - amount }
      (Except.ok (),
       { accounts := mapInsert client account' l.accounts,
         deposit_transactions_cache :=
           mapErase t.id l.deposit_transactions_cache })
    | none =>
      (Except.ok (), { l with accounts := mapInsert client account l.accounts })
  | TransactionType.Resolve =>
    match mapLookup t.id account.disputed_txs with
    | some amount =>
      let account' := { account with
        disputed_txs := mapErase t.id account.disputed_txs,
        held := account.held - amount,
        available := account.available + amount }
      (Except.ok (),
       { l with accounts := mapInsert client account' l.accounts })
    | none =>
      (Except.ok (), { l with accounts := mapInsert client account l.accounts })
  | TransactionType.Chargeback =>
    match mapLookup t.id account.disputed_txs with
    | some amount =>
      let account' := { account with
        disputed_txs := mapErase t.id account.disputed_txs,
        held := account.held - amount,
        total := account.total - amount,
        locked := true }
      (Except.ok (),
       { l with accounts := mapInsert client account' l.accounts })
    | none =>
      (Except.ok (), { l with accounts := mapInsert client account l.accounts })

/-- The processing loop of load_transactions, stripped of CSV reading: the
records are applied in order and the first error aborts the batch. -/
def load_transactions : List Transaction → Ledger → Except LedgerError Ledger
  | [], l => Except.ok l
  | t :: ts, l =>
    match process_transaction l t with
    | (Except.ok _, l') => load_transactions ts l'
    | (Except.error e, _) => Except.error e

/-- Every account of the map satisfies the balance invariant of the spec:
total equals available plus held. -/
def BalancedMap (m : List (ClientId × Account)) : Prop :=
  ∀ c acc, mapLookup c m = some acc → acc.total = acc.available + acc.held

end Accounting

namespace Accounting

theorem mapLookup_mapErase_self {α : Type} (k : Nat) (m : List (Nat × α)) :
    mapLookup k (mapErase k m) = none := by
  induction m with
  | nil => rfl
  | cons p m ih =>
    obtain ⟨k', v⟩ := p
    by_cases h : k' = k
    · simp [mapErase, h, ih]
    · simp [mapErase, mapLookup, h, ih]

theorem mapLookup_mapErase_ne {α : Type} {k k' : Nat} (h : k' ≠ k)
    (m : List (Nat × α)) : mapLookup k' (mapErase k m) = mapLookup k' m := by
  induction m with
  | nil => rfl
  | cons p m ih =>
    obtain ⟨k₀, v⟩ := p
    by_cases hk : k₀ = k
    · subst hk
      have hne : ¬ (k₀ = k') := fun hh => h (by rw [hh])
      simp [mapErase, mapLookup, hne, ih]
    · simp [mapErase, mapLookup, hk, ih]

theorem mapLookup_mapInsert_self {α : Type} (k : Nat) (v : α)
    (m : List (Nat × α)) : mapLookup k (mapInsert k v m) = some v := by
  simp [mapInsert, mapLookup]

theorem mapLookup_mapInsert_ne {α : Type} {k k' : Nat} (h : k' ≠ k) (v : α)
    (m : List (Nat × α)) : mapLookup k' (mapInsert k v m) = mapLookup k' m := by
  have : k ≠ k' := fun hh => h hh.symm
  simp [mapInsert, mapLookup, this, mapLookup_mapErase_ne h]

theorem mapErase_mapErase {α : Type} (k : Nat) (m : List (Nat × α)) :
    mapErase k (mapErase k m) = mapErase k m := by
  induction m with
  | nil => rfl
  | cons p m ih =>
    obtain ⟨k', v⟩ := p
    by_cases h : k' = k
    · simp [mapErase, h, ih]
    · simp [mapErase, h, ih]

theorem mapInsert_mapInsert_self {α : Type} (k : Nat) (v : α)
    (m : List (Nat × α)) : mapInsert k v (mapInsert k v m) = mapInsert k v m := by
  simp [mapInsert, mapErase, mapErase_mapErase]

end Accounting

namespace Accounting

theorem deposit_applied (l : Ledger) (t : Transaction) (a : Money)
    (hty : t.type_ = TransactionType.Deposit) (ham : t.amount = some a) :
    process_transaction l t =
      (Except.ok (),
        { accounts :=
            mapInsert t.client
              ({ accountOf l t.client with
                  available := (accountOf l t.client).available + a,
                  total := (accountOf l t.client).total + a })
              l.accounts,
          deposit_transactions_cache :=
            mapInsert t.id a l.deposit_transactions_cache }) := by
  simp [process_transaction, hty, ham]

theorem deposit_missing_amount (l : Ledger) (t : Transaction)
    (hty : t.type_ = TransactionType.Deposit) (ham : t.amount = none) :
    process_transaction l t =
      (Except.error LedgerError.missingAmount,
        { l with accounts := mapInsert t.client (accountOf l t.client) l.accounts }) := by
  simp [process_transaction, hty, ham]

theorem withdrawal_missing_amount (l : Ledger) (t : Transaction)
    (hty : t.type_ = TransactionType.Withdrawal) (ham : t.amount = none) :
    process_transaction l t =
      (Except.error LedgerError.missingAmount,
        { l with accounts := mapInsert t.client (accountOf l t.client) l.accounts }) := by
  simp [process_transaction, hty, ham]

theorem withdrawal_applied (l : Ledger) (t : Transaction) (a : Money)
    (hty : t.type_ = TransactionType.Withdrawal) (ham : t.amount = some a)
    (hav : a ≤ (accountOf l t.client).available)
    (hto : a ≤ (accountOf l t.client).total) :
    process_transaction l t =
      (Except.ok (),
        { l with
            accounts := mapInsert t.client
              ({ accountOf l t.client with
                  available := (accountOf l t.client).available - a,
                  total := (accountOf l t.client).total - a })
              l.accounts }) := by
  simp [process_transaction, hty, ham, hav, hto]

theorem withdrawal_insufficient (l : Ledger) (t : Transaction) (a : Money)
    (hty : t.type_ = TransactionType.Withdrawal) (ham : t.amount = some a)
    (hlt : ¬ (a ≤ (accountOf l t.client).available ∧ a ≤ (accountOf l t.client).total)) :
    process_transaction l t =
      (Except.error LedgerError.insufficientFunds,
        { l with accounts := mapInsert t.client (accountOf l t.client) l.accounts }) := by
  simp only [process_transaction, hty, ham]
  rw [if_neg hlt]

theorem dispute_applied (l : Ledger) (t : Transaction) (a : Money)
    (hty : t.type_ = TransactionType.Dispute)
    (hc : mapLookup t.id l.deposit_transactions_cache = some a) :
    process_transaction l t =
      (Except.ok (),
        { accounts :=
            mapInsert t.client
              ({ accountOf l t.client with
                  disputed_txs := mapInsert t.id a (accountOf l t.client).disputed_txs,
                  held := (accountOf l t.client).held + a,
                  available := (accountOf l t.client).available - a })
              l.accounts,
          deposit_transactions_cache :=
            mapErase t.id l.deposit_transactions_cache }) := by
  simp [process_transaction, hty, hc]

theorem dispute_unmatched (l : Ledger) (t : Transaction)
    (hty : t.type_ = TransactionType.Dispute)
    (hc : mapLookup t.id l.deposit_transactions_cache = none) :
    process_transaction l t =
      (Except.ok (),
        { l with accounts := mapInsert t.client (accountOf l t.client) l.accounts }) := by
  simp [process_transaction, hty, hc]

theorem resolve_applied (l : Ledger) (t : Transaction) (a : Money)
    (hty : t.type_ = TransactionType.Resolve)
    (hd : mapLookup t.id (accountOf l t.client).disputed_txs = some a) :
    process_transaction l t =
      (Except.ok (),
        { l with
            accounts := mapInsert t.client
              ({ accountOf l t.client with
                  disputed_txs := mapErase t.id (accountOf l t.client).disputed_txs,
                  held := (accountOf l t.client).held - a,
                  available := (accountOf l t.client).available + a })
              l.accounts }) := by
  simp [process_transaction, hty, hd]

theorem resolve_unmatched (l : Ledger) (t : Transaction)
    (hty : t.type_ = TransactionType.Resolve)
    (hd : mapLookup t.id (accountOf l t.client).disputed_txs = none) :
    process_transaction l t =
      (Except.ok (),
        { l with accounts := mapInsert t.client (accountOf l t.client) l.accounts }) := by
  simp [process_transaction, hty, hd]

theorem chargeback_applied (l : Ledger) (t : Transaction) (a : Money)
    (hty : t.type_ = TransactionType.Chargeback)
    (hd : mapLookup t.id (accountOf l t.client).disputed_txs = some a) :
    process_transaction l t =
      (Except.ok (),
        { l with
            accounts := mapInsert t.client
              ({ accountOf l t.client with
                  disputed_txs := mapErase t.id (accountOf l t.client).disputed_txs,
                  held := (accountOf l t.client).held - a,
                  total := (accountOf l t.client).total - a,
                  locked := true })
              l.accounts }) := by
  simp [process_transaction, hty, hd]

theorem chargeback_unmatched (l : Ledger) (t : Transaction)
    (hty : t.type_ = TransactionType.Chargeback)
    (hd : mapLookup t.id (accountOf l t.client).disputed_txs = none) :
    process_transaction l t =
      (Except.ok (),
        { l with accounts := mapInsert t.client (accountOf l t.client) l.accounts }) := by
  simp [process_transaction, hty, hd]

theorem accountOf_mapInsert_self (m : List (ClientId × Account))
    (cache : List (TransactionId × Money)) (c : ClientId) (acc : Account) :
    accountOf ⟨mapInsert c acc m, cache⟩ c = acc := by
  simp [accountOf, mapLookup_mapInsert_self]

theorem balancedMap_accountOf {l : Ledger} (h : BalancedMap l.accounts)
    (c : ClientId) :
    (accountOf l c).total = (accountOf l c).available + (accountOf l c).held := by
  unfold accountOf
  cases hl : mapLookup c l.accounts with
  | none => simp [Account.new]
  | some acc => simpa using h c acc hl

theorem balancedMap_mapInsert {m : List (ClientId × Account)} (h : BalancedMap m)
    {k : ClientId} {a : Account} (ha : a.total = a.available + a.held) :
    BalancedMap (mapInsert k a m) := by
  intro c acc hc
  by_cases hck : c = k
  · subst hck
    rw [mapLookup_mapInsert_self] at hc
    cases hc
    exact ha
  · rw [mapLookup_mapInsert_ne hck] at hc
    exact h c acc hc

theorem process_preserves_balanced (l : Ledger) (t : Transaction)
    (h : BalancedMap l.accounts) :
    BalancedMap (process_transaction l t).2.accounts := by
  have hb := balancedMap_accountOf h t.client
  cases hty : t.type_
  case Deposit =>
    cases ham : t.amount with
    | none =>
      rw [deposit_missing_amount l t hty ham]
      exact balancedMap_mapInsert h hb
    | some a =>
      rw [deposit_applied l t a hty ham]
      refine balancedMap_mapInsert h ?_
      show (accountOf l t.client).total + a =
        ((accountOf l t.client).available + a) + (accountOf l t.client).held
      linarith
  case Withdrawal =>
    cases ham : t.amount with
    | none =>
      rw [withdrawal_missing_amount l t hty ham]
      exact balancedMap_mapInsert h hb
    | some a =>
      by_cases hcond : a ≤ (accountOf l t.client).available ∧
          a ≤ (accountOf l t.client).total
      · rw [withdrawal_applied l t a hty ham hcond.1 hcond.2]
        refine balancedMap_mapInsert h ?_
        show (accountOf l t.client).total - a =
          ((accountOf l t.client).available - a) + (accountOf l t.client).held
        linarith
      · rw [withdrawal_insufficient l t a hty ham hcond]
        exact balancedMap_mapInsert h hb
  case Dispute =>
    cases hc : mapLookup t.id l.deposit_transactions_cache with
    | none =>
      rw [dispute_unmatched l t hty hc]
      exact balancedMap_mapInsert h hb
    | some a =>
      rw [dispute_applied l t a hty hc]
      refine balancedMap_mapInsert h ?_
      show (accountOf l t.client).total =
        ((accountOf l t.client).available - a) + ((accountOf l t.client).held + a)
      linarith
  case Resolve =>
    cases hd : mapLookup t.id (accountOf l t.client).disputed_txs with
    | none =>
      rw [resolve_unmatched l t hty hd]
      exact balancedMap_mapInsert h hb
    | some a =>
      rw [resolve_applied l t a hty hd]
      refine balancedMap_mapInsert h ?_
      show (accountOf l t.client).total =
        ((accountOf l t.client).available + a) + ((accountOf l t.client).held - a)
      linarith
  case Chargeback =>
    cases hd : mapLookup t.id (accountOf l t.client).disputed_txs with
    | none =>
      rw [chargeback_unmatched l t hty hd]
      exact balancedMap_mapInsert h hb
    | some a =>
      rw [chargeback_applied l t a hty hd]
      refine balancedMap_mapInsert h ?_
      show (accountOf l t.client).total - a =
        (accountOf l t.client).available + ((accountOf l t.client).held - a)
      linarith

theorem load_preserves_balanced (ts : List Transaction) :
    ∀ (l l' : Ledger), load_transactions ts l = Except.ok l' →
      BalancedMap l.accounts → BalancedMap l'.accounts := by
  induction ts with
  | nil =>
    intro l l' h hb
    simp only [load_transactions, Except.ok.injEq] at h
    exact h ▸ hb
  | cons t ts ih =>
    intro l l' h hb
    rcases hp : process_transaction l t with ⟨r, l₁⟩
    cases r with
    | ok u =>
      have h' : load_transactions ts l₁ = Except.ok l' := by
        simpa [load_transactions, hp] using h
      have hb₁ : BalancedMap l₁.accounts := by
        have := process_preserves_balanced l t hb
        rwa [hp] at this
      exact ih l₁ l' h' hb₁
    | error e =>
      simp [load_transactions, hp] at h

/-- Claim C1: for every account, after every successfully applied
transaction (process_transaction returning Ok), the exact equality
total = available + held holds, for every sequence of transactions applied
from the initial empty ledger.  Every successfully applied transaction is
the last element of some prefix of the input whose run succeeds, so
quantifying over all transaction lists covers every such point. -/
theorem C1_total_eq_available_add_held (ts : List Transaction) (l' : Ledger)
    (h : load_transactions ts Ledger.new = Except.ok l')
    (c : ClientId) (acc : Account)
    (hacc : mapLookup c l'.accounts = some acc) :
    acc.total = acc.available + acc.held := by
  have hb : BalancedMap (Ledger.new).accounts := by
    intro c a ha
    simp [Ledger.new, mapLookup] at ha
  exact load_preserves_balanced ts Ledger.new l' h hb c acc hacc

/-- Claim C1 witness: a deposit of 3 for client 1 from the empty ledger
reaches the account (available 3, held 0, total 3), and the theorem applies
to it. -/
theorem C1_total_eq_available_add_held_witness :
    ((⟨1, 3, 0, 3, false, []⟩ : Account)).total =
      ((⟨1, 3, 0, 3, false, []⟩ : Account)).available +
        ((⟨1, 3, 0, 3, false, []⟩ : Account)).held :=
  C1_total_eq_available_add_held
    [⟨TransactionType.Deposit, 1, 1, some 3⟩]
    ⟨[(1, ⟨1, 3, 0, 3, false, []⟩)], [(1, 3)]⟩
    (by norm_num [load_transactions, process_transaction, accountOf, mapLookup,
      mapInsert, mapErase, Ledger.new, Account.new])
    1 ⟨1, 3, 0, 3, false, []⟩ rfl

/-- Claim C2 (amended): a Withdrawal succeeds if and only if the account
has available >= amount AND total >= amount (the source checks both; the
two conditions coincide whenever held is nonnegative, in particular when
every deposit amount is nonnegative); on success it performs
available -= amount and total -= amount; otherwise it returns the
InsufficientFunds error and leaves the account unchanged. -/
theorem C2_withdrawal_success_iff (l : Ledger) (t : Transaction) (a : Money)
    (hty : t.type_ = TransactionType.Withdrawal) (ham : t.amount = some a) :
    ((process_transaction l t).1 = Except.ok () ↔
      a ≤ (accountOf l t.client).available ∧ a ≤ (accountOf l t.client).total) ∧
    (a ≤ (accountOf l t.client).available → a ≤ (accountOf l t.client).total →
      accountOf (process_transaction l t).2 t.client =
        { accountOf l t.client with
            available := (accountOf l t.client).available - a,
            total := (accountOf l t.client).total - a }) ∧
    (¬ (a ≤ (accountOf l t.client).available ∧ a ≤ (accountOf l t.client).total) →
      (process_transaction l t).1 = Except.error LedgerError.insufficientFunds ∧
      accountOf (process_transaction l t).2 t.client = accountOf l t.client) := by
  by_cases hcond : a ≤ (accountOf l t.client).available ∧
      a ≤ (accountOf l t.client).total
  · rw [withdrawal_applied l t a hty ham hcond.1 hcond.2]
    refine ⟨by simpa using hcond, fun _ _ => ?_, fun hn => absurd hcond hn⟩
    exact accountOf_mapInsert_self _ _ _ _
  · rw [withdrawal_insufficient l t a hty ham hcond]
    refine ⟨by simpa using hcond, fun h1 h2 => absurd ⟨h1, h2⟩ hcond, fun _ => ?_⟩
    exact ⟨rfl, accountOf_mapInsert_self _ _ _ _⟩

/-- Claim C2 witness: withdrawing 1 from an account with available 3 and
total 3 succeeds and leaves available 2, total 2; the general theorem is
applied at this input. -/
theorem C2_withdrawal_success_iff_witness :
    ((process_transaction ⟨[(1, ⟨1, 3, 0, 3, false, []⟩)], []⟩
        ⟨TransactionType.Withdrawal, 1, 2, some 1⟩).1 = Except.ok () ∧
      accountOf (process_transaction ⟨[(1, ⟨1, 3, 0, 3, false, []⟩)], []⟩
          ⟨TransactionType.Withdrawal, 1, 2, some 1⟩).2 1 =
        ⟨1, 2, 0, 2, false, []⟩) := by
  have h := C2_withdrawal_success_iff ⟨[(1, ⟨1, 3, 0, 3, false, []⟩)], []⟩
    ⟨TransactionType.Withdrawal, 1, 2, some 1⟩ 1 rfl rfl
  have hav : (1 : Money) ≤ (accountOf ⟨[(1, ⟨1, 3, 0, 3, false, []⟩)], []⟩ 1).available := by
    norm_num [accountOf, mapLookup]
  have hto : (1 : Money) ≤ (accountOf ⟨[(1, ⟨1, 3, 0, 3, false, []⟩)], []⟩ 1).total := by
    norm_num [accountOf, mapLookup]
  refine ⟨h.1.mpr ⟨hav, hto⟩, ?_⟩
  have h2 := h.2.1 hav hto
  rw [h2]
  norm_num [accountOf, mapLookup]

/-- Claim C2 counterexample: from the empty ledger, deposit of -5 (tx 1),
deposit of 10 (tx 2), then a dispute of tx 1 reach an account with
available 10, held -5, total 5.  A withdrawal of 7 then has
available >= amount, yet process_transaction fails with the insufficient
funds error because total < amount: the claimed equivalence between
success and available >= amount is false on this input. -/
theorem C2_withdrawal_success_iff_counterexample :
    load_transactions
        [⟨TransactionType.Deposit, 1, 1, some (-5)⟩,
         ⟨TransactionType.Deposit, 1, 2, some 10⟩,
         ⟨TransactionType.Dispute, 1, 1, none⟩] Ledger.new =
      Except.ok ⟨[(1, ⟨1, 10, -5, 5, false, [(1, -5)]⟩)], [(2, 10)]⟩ ∧
    (7 : Money) ≤
      (accountOf ⟨[(1, ⟨1, 10, -5, 5, false, [(1, -5)]⟩)], [(2, 10)]⟩ 1).available ∧
    (process_transaction ⟨[(1, ⟨1, 10, -5, 5, false, [(1, -5)]⟩)], [(2, 10)]⟩
        ⟨TransactionType.Withdrawal, 1, 3, some 7⟩).1 =
      Except.error LedgerError.insufficientFunds := by
  refine ⟨?_, ?_, ?_⟩ <;>
    norm_num [load_transactions, process_transaction, accountOf, mapLookup,
      mapInsert, mapErase, Ledger.new, Account.new]

/-- Claim C3: applying a Resolve for the same tx twice in a row is
idempotent: for every ledger state, the second Resolve returns Ok and
leaves the state exactly as it was after the first, because the first
Resolve removed the dispute marker (or there was none to begin with). -/
theorem C3_resolve_idempotent (l : Ledger) (t : Transaction)
    (hty : t.type_ = TransactionType.Resolve) :
    process_transaction (process_transaction l t).2 t =
      (Except.ok (), (process_transaction l t).2) := by
  cases hd : mapLookup t.id (accountOf l t.client).disputed_txs with
  | none =>
    rw [resolve_unmatched l t hty hd]
    have hacc : accountOf
        ({ l with accounts := mapInsert t.client (accountOf l t.client) l.accounts })
        t.client = accountOf l t.client :=
      accountOf_mapInsert_self _ _ _ _
    rw [resolve_unmatched _ t hty (by rw [hacc]; exact hd)]
    simp [hacc, mapInsert_mapInsert_self]
  | some a =>
    rw [resolve_applied l t a hty hd]
    have hacc : accountOf
        ({ l with
            accounts := mapInsert t.client
              ({ accountOf l t.client with
                  disputed_txs := mapErase t.id (accountOf l t.client).disputed_txs,
                  held := (accountOf l t.client).held - a,
                  available := (accountOf l t.client).available + a })
              l.accounts }) t.client =
        ({ accountOf l t.client with
            disputed_txs := mapErase t.id (accountOf l t.client).disputed_txs,
            held := (accountOf l t.client).held - a,
            available := (accountOf l t.client).available + a }) :=
      accountOf_mapInsert_self _ _ _ _
    rw [resolve_unmatched _ t hty (by rw [hacc]; exact mapLookup_mapErase_self _ _)]
    simp [hacc, mapInsert_mapInsert_self]

/-- Claim C3 witness: client 1 holds a dispute of 5 on tx 2; the theorem is
applied at this state, so resolving tx 2 a second time returns Ok and
changes nothing beyond the first Resolve. -/
theorem C3_resolve_idempotent_witness :
    process_transaction
        (process_transaction ⟨[(1, ⟨1, 0, 5, 5, false, [(2, 5)]⟩)], []⟩
          ⟨TransactionType.Resolve, 1, 2, none⟩).2
        ⟨TransactionType.Resolve, 1, 2, none⟩ =
      (Except.ok (),
        (process_transaction ⟨[(1, ⟨1, 0, 5, 5, false, [(2, 5)]⟩)], []⟩
          ⟨TransactionType.Resolve, 1, 2, none⟩).2) :=
  C3_resolve_idempotent ⟨[(1, ⟨1, 0, 5, 5, false, [(2, 5)]⟩)], []⟩
    ⟨TransactionType.Resolve, 1, 2, none⟩ rfl

/-- Claim C4: a Dispute referencing a transaction id absent from the
deposit cache (in particular one never seen as a deposit), and a Resolve or
Chargeback referencing a transaction id not currently disputed on the
referenced client's account (which likewise covers ids never seen as a
deposit), are not errors: process_transaction returns Ok and the referenced
client's account — balances, locked flag and disputed set — and the deposit
cache are left unchanged (at most a fresh all-zero account is created for a
client never seen before). -/
theorem C4_unmatched_reference_noop (l : Ledger) (t : Transaction) :
    (t.type_ = TransactionType.Dispute →
      mapLookup t.id l.deposit_transactions_cache = none →
      (process_transaction l t).1 = Except.ok () ∧
      accountOf (process_transaction l t).2 t.client = accountOf l t.client ∧
      (process_transaction l t).2.deposit_transactions_cache =
        l.deposit_transactions_cache) ∧
    (t.type_ = TransactionType.Resolve →
      mapLookup t.id (accountOf l t.client).disputed_txs = none →
      (process_transaction l t).1 = Except.ok () ∧
      accountOf (process_transaction l t).2 t.client = accountOf l t.client ∧
      (process_transaction l t).2.deposit_transactions_cache =
        l.deposit_transactions_cache) ∧
    (t.type_ = TransactionType.Chargeback →
      mapLookup t.id (accountOf l t.client).disputed_txs = none →
      (process_transaction l t).1 = Except.ok () ∧
      accountOf (process_transaction l t).2 t.client = accountOf l t.client ∧
      (process_transaction l t).2.deposit_transactions_cache =
        l.deposit_transactions_cache) := by
  refine ⟨fun hty hc => ?_, fun hty hd => ?_, fun hty hd => ?_⟩
  · rw [dispute_unmatched l t hty hc]
    exact ⟨rfl, accountOf_mapInsert_self _ _ _ _, rfl⟩
  · rw [resolve_unmatched l t hty hd]
    exact ⟨rfl, accountOf_mapInsert_self _ _ _ _, rfl⟩
  · rw [chargeback_unmatched l t hty hd]
    exact ⟨rfl, accountOf_mapInsert_self _ _ _ _, rfl⟩

/-- Claim C4 witness: on a ledger holding one deposit of 5 (tx 1) for
client 1, a Dispute, a Resolve and a Chargeback all referencing the unknown
tx 999 each return Ok and leave client 1's account untouched; each part of
the theorem is applied at this input. -/
theorem C4_unmatched_reference_noop_witness :
    ((process_transaction ⟨[(1, ⟨1, 5, 0, 5, false, []⟩)], [(1, 5)]⟩
        ⟨TransactionType.Dispute, 1, 999, none⟩).1 = Except.ok () ∧
      accountOf (process_transaction ⟨[(1, ⟨1, 5, 0, 5, false, []⟩)], [(1, 5)]⟩
          ⟨TransactionType.Dispute, 1, 999, none⟩).2 1 =
        accountOf ⟨[(1, ⟨1, 5, 0, 5, false, []⟩)], [(1, 5)]⟩ 1) ∧
    ((process_transaction ⟨[(1, ⟨1, 5, 0, 5, false, []⟩)], [(1, 5)]⟩
        ⟨TransactionType.Resolve, 1, 999, none⟩).1 = Except.ok () ∧
      accountOf (process_transaction ⟨[(1, ⟨1, 5, 0, 5, false, []⟩)], [(1, 5)]⟩
          ⟨TransactionType.Resolve, 1, 999, none⟩).2 1 =
        accountOf ⟨[(1, ⟨1, 5, 0, 5, false, []⟩)], [(1, 5)]⟩ 1) ∧
    ((process_transaction ⟨[(1, ⟨1, 5, 0, 5, false, []⟩)], [(1, 5)]⟩
        ⟨TransactionType.Chargeback, 1, 999, none⟩).1 = Except.ok () ∧
      accountOf (process_transaction ⟨[(1, ⟨1, 5, 0, 5, false, []⟩)], [(1, 5)]⟩
          ⟨TransactionType.Chargeback, 1, 999, none⟩).2 1 =
        accountOf ⟨[(1, ⟨1, 5, 0, 5, false, []⟩)], [(1, 5)]⟩ 1) := by
  have h1 := (C4_unmatched_reference_noop ⟨[(1, ⟨1, 5, 0, 5, false, []⟩)], [(1, 5)]⟩
    ⟨TransactionType.Dispute, 1, 999, none⟩).1 rfl (by norm_num [mapLookup])
  have h2 := (C4_unmatched_reference_noop ⟨[(1, ⟨1, 5, 0, 5, false, []⟩)], [(1, 5)]⟩
    ⟨TransactionType.Resolve, 1, 999, none⟩).2.1 rfl (by norm_num [accountOf, mapLookup])
  have h3 := (C4_unmatched_reference_noop ⟨[(1, ⟨1, 5, 0, 5, false, []⟩)], [(1, 5)]⟩
    ⟨TransactionType.Chargeback, 1, 999, none⟩).2.2 rfl (by norm_num [accountOf, mapLookup])
  exact ⟨⟨h1.1, h1.2.1⟩, ⟨h2.1, h2.2.1⟩, ⟨h3.1, h3.2.1⟩⟩

/-- Claim C5 (exact-decimal behaviour of the d128 ledger): depositing 0.1
(tx 1) and 0.2 (tx 2) and then withdrawing 0.2 (tx 3) returns available and
total exactly to 0.1 — exact decimal arithmetic has no rounding drift.  The
f64 money type of the main.rs variant violates exactly this sequence. -/
theorem C5_exact_decimal_no_drift :
    load_transactions
        [⟨TransactionType.Deposit, 1, 1, some 0.1⟩,
         ⟨TransactionType.Deposit, 1, 2, some 0.2⟩,
         ⟨TransactionType.Withdrawal, 1, 3, some 0.2⟩] Ledger.new =
      Except.ok ⟨[(1, ⟨1, 0.1, 0, 0.1, false, []⟩)], [(2, 0.2), (1, 0.1)]⟩ := by
  norm_num [load_transactions, process_transaction, accountOf, mapLookup,
    mapInsert, mapErase, Ledger.new, Account.new]

/-- Claim C6: a Dispute whose tx is found in the deposit cache with amount
A returns Ok, marks tx as currently disputed on the referenced client's
account with amount A, and performs held += A and available -= A.  There is
no condition on the sign of the resulting available: an available that goes
negative is accepted all the same (the theorem has no such hypothesis, and
the witness exhibits the negative case). -/
theorem C6_dispute_applies_hold (l : Ledger) (t : Transaction) (a : Money)
    (hty : t.type_ = TransactionType.Dispute)
    (hc : mapLookup t.id l.deposit_transactions_cache = some a) :
    (process_transaction l t).1 = Except.ok () ∧
    accountOf (process_transaction l t).2 t.client =
      { accountOf l t.client with
          disputed_txs := mapInsert t.id a (accountOf l t.client).disputed_txs,
          held := (accountOf l t.client).held + a,
          available := (accountOf l t.client).available - a } ∧
    mapLookup t.id (accountOf (process_transaction l t).2 t.client).disputed_txs =
      some a := by
  rw [dispute_applied l t a hty hc]
  refine ⟨rfl, accountOf_mapInsert_self _ _ _ _, ?_⟩
  rw [accountOf_mapInsert_self]
  exact mapLookup_mapInsert_self _ _ _

/-- Claim C6 witness: the spec's negative-balance scenario.  After a
deposit of 0.0001 (tx 1) fully withdrawn again, disputing tx 1 succeeds and
yields available -0.0001, held 0.0001, total 0: the hold is applied even
though available goes negative. -/
theorem C6_dispute_applies_hold_witness :
    (process_transaction ⟨[(1, ⟨1, 0, 0, 0, false, []⟩)], [(1, 0.0001)]⟩
        ⟨TransactionType.Dispute, 1, 1, none⟩).1 = Except.ok () ∧
    accountOf (process_transaction ⟨[(1, ⟨1, 0, 0, 0, false, []⟩)], [(1, 0.0001)]⟩
        ⟨TransactionType.Dispute, 1, 1, none⟩).2 1 =
      ⟨1, -0.0001, 0.0001, 0, false, [(1, 0.0001)]⟩ := by
  have h := C6_dispute_applies_hold ⟨[(1, ⟨1, 0, 0, 0, false, []⟩)], [(1, 0.0001)]⟩
    ⟨TransactionType.Dispute, 1, 1, none⟩ 0.0001 rfl rfl
  refine ⟨h.1, ?_⟩
  rw [h.2.1]
  norm_num [accountOf, mapLookup, mapInsert, mapErase]

/-- Claim C7: a Chargeback whose tx is currently disputed on the referenced
client's account with amount A returns Ok, removes tx from the disputed
set, performs held -= A and total -= A, leaves available unchanged, and
sets locked to true; a Chargeback whose tx is not currently disputed
returns Ok and changes nothing (neither the account nor the deposit
cache). -/
theorem C7_chargeback (l : Ledger) (t : Transaction) (a : Money) :
    (t.type_ = TransactionType.Chargeback →
      mapLookup t.id (accountOf l t.client).disputed_txs = some a →
      (process_transaction l t).1 = Except.ok () ∧
      accountOf (process_transaction l t).2 t.client =
        { accountOf l t.client with
            disputed_txs := mapErase t.id (accountOf l t.client).disputed_txs,
            held := (accountOf l t.client).held - a,
            total := (accountOf l t.client).total - a,
            locked := true } ∧
      mapLookup t.id
        (accountOf (process_transaction l t).2 t.client).disputed_txs = none ∧
      (accountOf (process_transaction l t).2 t.client).available =
        (accountOf l t.client).available) ∧
    (t.type_ = TransactionType.Chargeback →
      mapLookup t.id (accountOf l t.client).disputed_txs = none →
      (process_transaction l t).1 = Except.ok () ∧
      accountOf (process_transaction l t).2 t.client = accountOf l t.client ∧
      (process_transaction l t).2.deposit_transactions_cache =
        l.deposit_transactions_cache) := by
  refine ⟨fun hty hd => ?_, fun hty hd => ?_⟩
  · rw [chargeback_applied l t a hty hd]
    refine ⟨rfl, accountOf_mapInsert_self _ _ _ _, ?_, ?_⟩
    · rw [accountOf_mapInsert_self]
      exact mapLookup_mapErase_self _ _
    · rw [accountOf_mapInsert_self]
  · rw [chargeback_unmatched l t hty hd]
    exact ⟨rfl, accountOf_mapInsert_self _ _ _ _, rfl⟩

/-- Claim C7 witness: client 1 has tx 2 under dispute for 5 (available 0,
held 5, total 5); the chargeback returns Ok and yields available 0, held 0,
total 0, locked true with the dispute marker gone, while a chargeback of
the undisputed tx 999 on the same state changes nothing. -/
theorem C7_chargeback_witness :
    ((process_transaction ⟨[(1, ⟨1, 0, 5, 5, false, [(2, 5)]⟩)], []⟩
        ⟨TransactionType.Chargeback, 1, 2, none⟩).1 = Except.ok () ∧
      accountOf (process_transaction ⟨[(1, ⟨1, 0, 5, 5, false, [(2, 5)]⟩)], []⟩
          ⟨TransactionType.Chargeback, 1, 2, none⟩).2 1 =
        ⟨1, 0, 0, 0, true, []⟩) ∧
    accountOf (process_transaction ⟨[(1, ⟨1, 0, 5, 5, false, [(2, 5)]⟩)], []⟩
        ⟨TransactionType.Chargeback, 1, 999, none⟩).2 1 =
      accountOf ⟨[(1, ⟨1, 0, 5, 5, false, [(2, 5)]⟩)], []⟩ 1 := by
  have h1 := (C7_chargeback ⟨[(1, ⟨1, 0, 5, 5, false, [(2, 5)]⟩)], []⟩
    ⟨TransactionType.Chargeback, 1, 2, none⟩ 5).1 rfl rfl
  have h2 := (C7_chargeback ⟨[(1, ⟨1, 0, 5, 5, false, [(2, 5)]⟩)], []⟩
    ⟨TransactionType.Chargeback, 1, 999, none⟩ 5).2 rfl
    (by norm_num [accountOf, mapLookup])
  refine ⟨⟨h1.1, ?_⟩, h2.2.1⟩
  rw [h1.2.1]
  norm_num [accountOf, mapLookup, mapInsert, mapErase]

theorem process_accounts_shape (l : Ledger) (t : Transaction) :
    ∃ acc', (process_transaction l t).2.accounts = mapInsert t.client acc' l.accounts := by
  cases hty : t.type_
  case Deposit =>
    cases ham : t.amount with
    | none => rw [deposit_missing_amount l t hty ham]; exact ⟨_, rfl⟩
    | some a => rw [deposit_applied l t a hty ham]; exact ⟨_, rfl⟩
  case Withdrawal =>
    cases ham : t.amount with
    | none => rw [withdrawal_missing_amount l t hty ham]; exact ⟨_, rfl⟩
    | some a =>
      by_cases hcond : a ≤ (accountOf l t.client).available ∧
          a ≤ (accountOf l t.client).total
      · rw [withdrawal_applied l t a hty ham hcond.1 hcond.2]; exact ⟨_, rfl⟩
      · rw [withdrawal_insufficient l t a hty ham hcond]; exact ⟨_, rfl⟩
  case Dispute =>
    cases hc : mapLookup t.id l.deposit_transactions_cache with
    | none => rw [dispute_unmatched l t hty hc]; exact ⟨_, rfl⟩
    | some a => rw [dispute_applied l t a hty hc]; exact ⟨_, rfl⟩
  case Resolve =>
    cases hd : mapLookup t.id (accountOf l t.client).disputed_txs with
    | none => rw [resolve_unmatched l t hty hd]; exact ⟨_, rfl⟩
    | some a => rw [resolve_applied l t a hty hd]; exact ⟨_, rfl⟩
  case Chargeback =>
    cases hd : mapLookup t.id (accountOf l t.client).disputed_txs with
    | none => rw [chargeback_unmatched l t hty hd]; exact ⟨_, rfl⟩
    | some a => rw [chargeback_applied l t a hty hd]; exact ⟨_, rfl⟩

theorem mapLookup_mapInsert_isSome {α : Type} (k c : Nat) (v : α)
    (m : List (Nat × α)) (acc : α) (h : mapLookup c m = some acc) :
    ∃ w, mapLookup c (mapInsert k v m) = some w := by
  by_cases hck : c = k
  · subst hck
    exact ⟨v, mapLookup_mapInsert_self _ _ _⟩
  · exact ⟨acc, by rw [mapLookup_mapInsert_ne hck]; exact h⟩

theorem load_accounts_persist (ts : List Transaction) :
    ∀ (l l' : Ledger), load_transactions ts l = Except.ok l' →
      ∀ c acc, mapLookup c l.accounts = some acc →
        ∃ acc', mapLookup c l'.accounts = some acc' := by
  induction ts with
  | nil =>
    intro l l' h c acc hacc
    simp only [load_transactions, Except.ok.injEq] at h
    exact ⟨acc, h ▸ hacc⟩
  | cons t ts ih =>
    intro l l' h c acc hacc
    rcases hp : process_transaction l t with ⟨r, l₁⟩
    cases r with
    | ok u =>
      have h' : load_transactions ts l₁ = Except.ok l' := by
        simpa [load_transactions, hp] using h
      obtain ⟨accX, hshape⟩ := process_accounts_shape l t
      rw [hp] at hshape
      obtain ⟨acc₁, hacc₁⟩ :=
        mapLookup_mapInsert_isSome t.client c accX l.accounts acc hacc
      exact ih l₁ l' h' c acc₁ (by rw [hshape]; exact hacc₁)
    | error e => simp [load_transactions, hp] at h

/-- Claim C8 (amended): no transaction kind ever removes a client account:
every account present before a process_transaction call is still present
after it, and after any successful run continuing from there; the
referenced client's account always exists after the call — it is created
lazily (all zeroes) on the first transaction referencing that client, of
any kind, and from then on persists. -/
theorem C8_accounts_persist (l : Ledger) (t : Transaction) :
    (∀ c acc, mapLookup c l.accounts = some acc →
      ∃ acc', mapLookup c (process_transaction l t).2.accounts = some acc') ∧
    (∃ acc', mapLookup t.client (process_transaction l t).2.accounts = some acc') ∧
    (∀ ts l', load_transactions ts l = Except.ok l' →
      ∀ c acc, mapLookup c l.accounts = some acc →
        ∃ acc', mapLookup c l'.accounts = some acc') := by
  obtain ⟨accX, hshape⟩ := process_accounts_shape l t
  refine ⟨fun c acc hacc => ?_, ?_, fun ts l' h c acc hacc => ?_⟩
  · rw [hshape]
    exact mapLookup_mapInsert_isSome t.client c accX l.accounts acc hacc
  · rw [hshape]
    exact ⟨accX, mapLookup_mapInsert_self _ _ _⟩
  · exact load_accounts_persist ts l l' h c acc hacc

/-- Claim C8 witness: client 1's account persists across a deposit by
client 2, and client 2's account exists afterwards; both parts of the
theorem are applied at this input. -/
theorem C8_accounts_persist_witness :
    (∃ acc', mapLookup 1
      (process_transaction ⟨[(1, ⟨1, 5, 0, 5, false, []⟩)], []⟩
        ⟨TransactionType.Deposit, 2, 9, some 4⟩).2.accounts = some acc') ∧
    (∃ acc', mapLookup 2
      (process_transaction ⟨[(1, ⟨1, 5, 0, 5, false, []⟩)], []⟩
        ⟨TransactionType.Deposit, 2, 9, some 4⟩).2.accounts = some acc') :=
  ⟨(C8_accounts_persist ⟨[(1, ⟨1, 5, 0, 5, false, []⟩)], []⟩
      ⟨TransactionType.Deposit, 2, 9, some 4⟩).1 1 ⟨1, 5, 0, 5, false, []⟩ rfl,
   (C8_accounts_persist ⟨[(1, ⟨1, 5, 0, 5, false, []⟩)], []⟩
      ⟨TransactionType.Deposit, 2, 9, some 4⟩).2.1⟩

/-- Claim C8 counterexample: the claim as stated also says no transaction
ever creates an account, but a Dispute by the never-seen client 7
referencing the unknown tx 999 creates client 7's all-zero account: before
the call the ledger has no account for 7, after it it does (and the call
returned Ok). -/
theorem C8_accounts_persist_counterexample :
    mapLookup 7 (Ledger.new).accounts = none ∧
    (process_transaction Ledger.new ⟨TransactionType.Dispute, 7, 999, none⟩).1 =
      Except.ok () ∧
    mapLookup 7
      (process_transaction Ledger.new
        ⟨TransactionType.Dispute, 7, 999, none⟩).2.accounts =
      some (Account.new 7) :=
  ⟨rfl, rfl, rfl⟩

/-- Claim C9: the ledger never checks that a Dispute's client field matches
the client of the deposit it references — the deposit cache stores no
client.  For every Dispute whose tx is in the deposit cache with amount A,
the hold (held += A, available -= A, dispute marker for tx) is applied to
the account of the Dispute record's own client, created all-zero if that
client was never seen, and every other client's account — in particular any
differing depositor's — is left byte-for-byte unchanged. -/
theorem C9_dispute_ignores_depositor (l : Ledger) (t : Transaction) (a : Money)
    (hty : t.type_ = TransactionType.Dispute)
    (hc : mapLookup t.id l.deposit_transactions_cache = some a) :
    accountOf (process_transaction l t).2 t.client =
      { accountOf l t.client with
          disputed_txs := mapInsert t.id a (accountOf l t.client).disputed_txs,
          held := (accountOf l t.client).held + a,
          available := (accountOf l t.client).available - a } ∧
    (∀ c, c ≠ t.client →
      mapLookup c (process_transaction l t).2.accounts = mapLookup c l.accounts) := by
  rw [dispute_applied l t a hty hc]
  exact ⟨accountOf_mapInsert_self _ _ _ _, fun c hne => mapLookup_mapInsert_ne hne _ _⟩

/-- Claim C9 witness: client 1 deposited 5 as tx 1; a Dispute by the
different client 2 referencing tx 1 puts the hold on client 2's fresh
account (available -5, held 5, total 0, tx 1 marked disputed) and leaves
client 1's account unchanged. -/
theorem C9_dispute_ignores_depositor_witness :
    accountOf (process_transaction ⟨[(1, ⟨1, 5, 0, 5, false, []⟩)], [(1, 5)]⟩
        ⟨TransactionType.Dispute, 2, 1, none⟩).2 2 =
      ⟨2, -5, 5, 0, false, [(1, 5)]⟩ ∧
    mapLookup 1 (process_transaction ⟨[(1, ⟨1, 5, 0, 5, false, []⟩)], [(1, 5)]⟩
        ⟨TransactionType.Dispute, 2, 1, none⟩).2.accounts =
      mapLookup 1 (⟨[(1, ⟨1, 5, 0, 5, false, []⟩)], [(1, 5)]⟩ : Ledger).accounts := by
  have h := C9_dispute_ignores_depositor ⟨[(1, ⟨1, 5, 0, 5, false, []⟩)], [(1, 5)]⟩
    ⟨TransactionType.Dispute, 2, 1, none⟩ 5 rfl rfl
  refine ⟨?_, h.2 1 (by norm_num)⟩
  rw [h.1]
  norm_num [accountOf, mapLookup, mapInsert, mapErase, Account.new]

/-- Claim C10 (amended): in the accounting.rs Ledger a successful Dispute
removes its tx from the global deposit cache, and no Dispute, Resolve or
Chargeback ever (re-)inserts a cache entry — only a Deposit does.  So
unless a later Deposit reuses the same transaction id, each deposit
transaction id can be successfully disputed at most once per run: a second
Dispute of the same tx — including after a Resolve has returned the funds —
finds no cache entry, returns Ok and is a no-op on account balances. -/
theorem C10_dispute_consumes_cache (l : Ledger) (t : Transaction) :
    (∀ a, t.type_ = TransactionType.Dispute →
      mapLookup t.id l.deposit_transactions_cache = some a →
      mapLookup t.id (process_transaction l t).2.deposit_transactions_cache = none) ∧
    (∀ x, t.type_ ≠ TransactionType.Deposit →
      mapLookup x l.deposit_transactions_cache = none →
      mapLookup x (process_transaction l t).2.deposit_transactions_cache = none) ∧
    (t.type_ = TransactionType.Dispute →
      mapLookup t.id l.deposit_transactions_cache = none →
      (process_transaction l t).1 = Except.ok () ∧
      accountOf (process_transaction l t).2 t.client = accountOf l t.client) := by
  refine ⟨fun a hty hc => ?_, fun x hnty hx => ?_, fun hty hc => ?_⟩
  · rw [dispute_applied l t a hty hc]
    exact mapLookup_mapErase_self _ _
  · cases hty : t.type_
    case Deposit => exact absurd hty hnty
    case Withdrawal =>
      cases ham : t.amount with
      | none => rw [withdrawal_missing_amount l t hty ham]; exact hx
      | some a =>
        by_cases hcond : a ≤ (accountOf l t.client).available ∧
            a ≤ (accountOf l t.client).total
        · rw [withdrawal_applied l t a hty ham hcond.1 hcond.2]; exact hx
        · rw [withdrawal_insufficient l t a hty ham hcond]; exact hx
    case Dispute =>
      cases hc : mapLookup t.id l.deposit_transactions_cache with
      | none => rw [dispute_unmatched l t hty hc]; exact hx
      | some a =>
        rw [dispute_applied l t a hty hc]
        by_cases hxe : x = t.id
        · subst hxe
          exact mapLookup_mapErase_self _ _
        · rw [mapLookup_mapErase_ne hxe]
          exact hx
    case Resolve =>
      cases hd : mapLookup t.id (accountOf l t.client).disputed_txs with
      | none => rw [resolve_unmatched l t hty hd]; exact hx
      | some a => rw [resolve_applied l t a hty hd]; exact hx
    case Chargeback =>
      cases hd : mapLookup t.id (accountOf l t.client).disputed_txs with
      | none => rw [chargeback_unmatched l t hty hd]; exact hx
      | some a => rw [chargeback_applied l t a hty hd]; exact hx
  · rw [dispute_unmatched l t hty hc]
    exact ⟨rfl, accountOf_mapInsert_self _ _ _ _⟩

/-- Claim C10 witness: after a deposit of 5 (tx 1) is disputed, the cache
entry for tx 1 is gone, and disputing tx 1 again on the resulting state
returns Ok and leaves client 1's balances unchanged; the theorem's parts
are applied at these inputs. -/
theorem C10_dispute_consumes_cache_witness :
    mapLookup 1 (process_transaction ⟨[(1, ⟨1, 5, 0, 5, false, []⟩)], [(1, 5)]⟩
        ⟨TransactionType.Dispute, 1, 1, none⟩).2.deposit_transactions_cache =
      none ∧
    accountOf (process_transaction ⟨[(1, ⟨1, 0, 5, 5, false, [(1, 5)]⟩)], []⟩
        ⟨TransactionType.Dispute, 1, 1, none⟩).2 1 =
      accountOf ⟨[(1, ⟨1, 0, 5, 5, false, [(1, 5)]⟩)], []⟩ 1 :=
  ⟨(C10_dispute_consumes_cache ⟨[(1, ⟨1, 5, 0, 5, false, []⟩)], [(1, 5)]⟩
      ⟨TransactionType.Dispute, 1, 1, none⟩).1 5 rfl rfl,
   ((C10_dispute_consumes_cache ⟨[(1, ⟨1, 0, 5, 5, false, [(1, 5)]⟩)], []⟩
      ⟨TransactionType.Dispute, 1, 1, none⟩).2.2 rfl rfl).2⟩

/-- Claim C10 counterexample: the claim as stated says nothing ever
re-inserts a disputed tx into the deposit cache and a second Dispute of the
same tx is always a no-op on balances.  But a later Deposit reusing tx 1
re-inserts a cache entry: after deposit 5 (tx 1), dispute tx 1, deposit 7
(tx 1 again), the cache again maps tx 1 (to 7), and a second Dispute of
tx 1 succeeds and moves held from 5 to 12 — not a no-op. -/
theorem C10_dispute_consumes_cache_counterexample :
    load_transactions
        [⟨TransactionType.Deposit, 1, 1, some 5⟩,
         ⟨TransactionType.Dispute, 1, 1, none⟩,
         ⟨TransactionType.Deposit, 1, 1, some 7⟩] Ledger.new =
      Except.ok ⟨[(1, ⟨1, 7, 5, 12, false, [(1, 5)]⟩)], [(1, 7)]⟩ ∧
    mapLookup 1
      ((⟨[(1, ⟨1, 7, 5, 12, false, [(1, 5)]⟩)], [(1, 7)]⟩ : Ledger)).deposit_transactions_cache =
      some 7 ∧
    (accountOf ⟨[(1, ⟨1, 7, 5, 12, false, [(1, 5)]⟩)], [(1, 7)]⟩ 1).held = 5 ∧
    (process_transaction ⟨[(1, ⟨1, 7, 5, 12, false, [(1, 5)]⟩)], [(1, 7)]⟩
        ⟨TransactionType.Dispute, 1, 1, none⟩).1 = Except.ok () ∧
    (accountOf (process_transaction ⟨[(1, ⟨1, 7, 5, 12, false, [(1, 5)]⟩)], [(1, 7)]⟩
        ⟨TransactionType.Dispute, 1, 1, none⟩).2 1).held = 12 := by
  refine ⟨?_, ?_, ?_, ?_, ?_⟩ <;>
    norm_num [load_transactions, process_transaction, accountOf, mapLookup,
      mapInsert, mapErase, Ledger.new, Account.new]

end Accounting
